import Mathlib

namespace ClientHunter

/-!
Verification of the client-hunter prospecting pipeline.

This file gives a shallow embedding of the pure, decision-making parts of the
repository (email noise filtering, phone-number retention, WordPress
detection, batch error conversion, summary statistics, search-result
deduplication, URL validity filtering, social-link capture, pipeline
tagging, and batch scraping), translated definition-by-definition from the
JavaScript source, and proves or refutes the specified properties.

Network fetches are modelled by passing the fetched data (or the fetch
error, as `Except String`) explicitly; JavaScript strings are Lean
`String`s, JavaScript numbers used for the summary ratios are modelled as
exact rationals with `toFixed(1)` modelled as round-half-up to one decimal
place.
-/

/-- JavaScript `String.prototype.toLowerCase`, restricted to the ASCII range
actually exercised by the repository (maps `A-Z` to `a-z` character-wise). -/
def lowerStr (s : String) : String :=
  String.mk (s.data.map Char.toLower)

/-- JavaScript `String.prototype.includes`: substring containment. -/
def strContains (s pat : String) : Bool :=
  decide (pat.data <:+: s.data)

/-- JavaScript `String.prototype.startsWith`. -/
def strStartsWith (s pat : String) : Bool :=
  decide (pat.data <+: s.data)

/-- JavaScript `String.prototype.endsWith`. -/
def strEndsWith (s pat : String) : Bool :=
  decide (pat.data <:+ s.data)

/-- JavaScript whitespace characters removed by `String.prototype.trim`
(the ASCII ones; the repository only ever trims phone-number matches). -/
def isJsWhitespace (c : Char) : Bool :=
  c = ' ' || c = '\t' || c = '\n' || c = '\r' || c = '\x0b' || c = '\x0c'

/-- JavaScript `String.prototype.trim`: strip leading and trailing whitespace. -/
def trimStr (s : String) : String :=
  String.mk (((s.data.dropWhile isJsWhitespace).reverse.dropWhile isJsWhitespace).reverse)

/-! ## EmailExtractor.filterEmails (src/src/emailExtractor.js, lines 169-187)

The JavaScript denylist is a list of case-insensitive regular expressions,
every one of which is anchored at the start of the string (`^...`), so each
is a case-insensitive prefix test.  `/^no-?reply/i` is the prefix `noreply`
or `no-reply`. -/

/-- One anchored case-insensitive pattern test: `pat` (already lower case)
is a prefix of the lower-cased email. -/
def prefixCI (pat email : String) : Bool :=
  strStartsWith (lowerStr email) pat

/-- The body of `excludePatterns.some(pattern => pattern.test(email))` from
`EmailExtractor.filterEmails`: the ten anchored regexes of the source, in
order. -/
def matchesExcludePattern (email : String) : Bool :=
  (prefixCI "noreply" email || prefixCI "no-reply" email) ||
  prefixCI "donotreply" email ||
  prefixCI "noreply" email ||
  prefixCI "support" email ||
  prefixCI "help" email ||
  prefixCI "info@example" email ||
  prefixCI "test@" email ||
  prefixCI "admin@example" email ||
  prefixCI "example@" email ||
  prefixCI "@example" email

/-- `EmailExtractor.filterEmails`: keep the emails matching no denylist
pattern. -/
def filterEmails (emails : List String) : List String :=
  emails.filter (fun email => !(matchesExcludePattern email))

/-! ## GoogleSearcher.deduplicateResults (src/src/googleSearcher.js, lines 256-266) -/

/-- A parsed search result as produced by `GoogleSearcher.parseGoogleResults`. -/
structure SearchResult where
  url : String
  title : String
  description : String
  source : String
deriving DecidableEq

/-- The `filter` with a mutable `seen` set from
`GoogleSearcher.deduplicateResults`, with the set of already-seen lower-cased
URLs made explicit. -/
def dedupAux (seen : List String) : List SearchResult → List SearchResult
  | [] => []
  | r :: rs =>
    if lowerStr r.url ∈ seen then dedupAux seen rs
    else r :: dedupAux (lowerStr r.url :: seen) rs

/-- `GoogleSearcher.deduplicateResults`: case-insensitive dedup on `url`,
first occurrence kept. -/
def deduplicateResults (results : List SearchResult) : List SearchResult :=
  dedupAux [] results

/-! ## WordPressDetector.isWordPressSite (src/unnamed/part_001, lines 21-111)

The detector fetches the page and then decides purely from the fetched
data.  We model the fetched data: the raw body, the content of the
`meta[name="generator"]` tag (absent or empty modelled as `none`, matching
the falsiness test in the source), whether the `wp-json` REST probe
answered with status 200 (any probe failure is swallowed by the source and
modelled as `false`), the number of `link` tags whose `href` contains
`wp-`, and the `class` attribute of `body`. -/

/-- Confidence tier of a detection verdict. -/
inductive Confidence where
  | high
  | medium
  | low
  | unknown
deriving DecidableEq

/-- The object returned by `WordPressDetector.isWordPressSite`. -/
structure WPResult where
  isWordPress : Bool
  indicator : Option String
  confidence : Confidence
deriving DecidableEq

/-- The fetched data that `isWordPressSite` inspects. -/
structure DetectPage where
  body : String
  generator : Option String
  apiProbeOk : Bool
  wpLinkTagCount : Nat
  bodyClass : String

/-- `this.indicators` from the `WordPressDetector` constructor, in source
order (all are matched as literal substrings by `includes`). -/
def indicators : List String :=
  [ "/wp-content/", "/wp-includes/", "/wp-admin/", "wp-json", "wordpress",
    "wp_enqueue_script", "wp-embed.min.js", "generator.*wordpress",
    "wp-rocket", "elementor", "woocommerce" ]

/-- The `meta[name="generator"]` check of `isWordPressSite`:
`generator && generator.toLowerCase().includes('wordpress')`. -/
def generatorMentionsWordPress (p : DetectPage) : Bool :=
  match p.generator with
  | some g => strContains (lowerStr g) "wordpress"
  | none => false

/-- The body-class check of `isWordPressSite`:
`bodyClasses.includes('wp-') || bodyClasses.includes('wordpress')`. -/
def bodyClassMentionsWordPress (p : DetectPage) : Bool :=
  strContains p.bodyClass "wp-" || strContains p.bodyClass "wordpress"

/-- `WordPressDetector.isWordPressSite` on already-fetched data: the
ordered heuristic cascade of the source, first match wins. -/
def isWordPressSite (p : DetectPage) : WPResult :=
  match indicators.find? (fun ind => strContains (lowerStr p.body) (lowerStr ind)) with
  | some ind => ⟨true, some ind, Confidence.high⟩
  | none =>
    if generatorMentionsWordPress p then
      ⟨true, some "meta generator tag", Confidence.high⟩
    else if p.apiProbeOk then
      ⟨true, some "WordPress REST API", Confidence.high⟩
    else if 0 < p.wpLinkTagCount then
      ⟨true, some "WordPress assets in link tags", Confidence.medium⟩
    else if bodyClassMentionsWordPress p then
      ⟨true, some "WordPress CSS classes", Confidence.medium⟩
    else
      ⟨false, none, Confidence.high⟩

/-- No heuristic at all fires on the page. -/
def noHeuristicMatches (p : DetectPage) : Prop :=
  indicators.find? (fun ind => strContains (lowerStr p.body) (lowerStr ind)) = none ∧
  generatorMentionsWordPress p = false ∧
  p.apiProbeOk = false ∧
  p.wpLinkTagCount = 0 ∧
  bodyClassMentionsWordPress p = false

/-- A page whose body contains the literal text `/wp-content/` (in mixed
case, and buried in other text), and on which every later heuristic would
also fire, used to witness the short-circuit. -/
def wpPage : DetectPage :=
  ⟨ "<html><a href=x/WP-Content/theme.css>link</a></html>",
    some "Joomla", true, 3, "wordpress-body" ⟩

/-- A page with no WordPress signal at all. -/
def plainPage : DetectPage :=
  ⟨ "<html><p>hello there</p></html>", none, false, 0, "main" ⟩

/-! ## WordPressDetector.checkWordPressBatch (src/unnamed/part_001, lines 113-139)

The batch loop awaits `isWordPressSite(url)` for each URL in order; that
call either resolves to a `WPResult` or rejects with a fetch error.  We
model each iteration's outcome as `Except String WPResult`. -/

/-- One batch item: the URL together with the outcome of its detection call. -/
structure BatchEntry where
  url : String
  outcome : Except String WPResult

/-- The record pushed onto `results` for one URL (the success branch spreads
the verdict, the catch branch builds the error record). -/
structure BatchRecord where
  url : String
  isWordPress : Bool
  indicator : Option String
  confidence : Confidence
  error : Option String
deriving DecidableEq

/-- One loop iteration of `checkWordPressBatch`: the record pushed for one
entry (success spreads the verdict with no `error` field, the catch branch
builds the unknown-confidence error record). -/
def batchRecordOf (e : BatchEntry) : BatchRecord :=
  match e.outcome with
  | Except.ok r => ⟨e.url, r.isWordPress, r.indicator, r.confidence, none⟩
  | Except.error msg => ⟨e.url, false, none, Confidence.unknown, some msg⟩

/-- `WordPressDetector.checkWordPressBatch`: one record per URL, in order;
a rejected detection is converted into a `confidence = unknown` record
carrying the error message instead of propagating. -/
def checkWordPressBatch (entries : List BatchEntry) : List BatchRecord :=
  entries.map batchRecordOf

/-- A three-URL batch whose middle detection rejects with a fetch error. -/
def batch3 : List BatchEntry :=
  [ ⟨"https://one.com", Except.ok ⟨true, some "/wp-content/", Confidence.high⟩⟩,
    ⟨"https://two.com", Except.error "connect ETIMEDOUT"⟩,
    ⟨"https://three.com", Except.ok ⟨false, none, Confidence.high⟩⟩ ]

/-! ## Phone-number extraction (src/src/emailExtractor.js, lines 115-124)

The source matches the page text against
`/(\+?\d{1,4}[-.\s]?)?\(?\d{1,4}\)?[-.\s]?\d{1,4}[-.\s]?\d{1,9}/g`
and, for each match, strips every character that is neither a digit nor
`+` (`phone.replace(/[^\d+]/g, '')`); the match is kept, trimmed, when the
stripped form has length at least 7.

We embed the regex itself as a sequence of greedily quantified character
classes with one optional group, together with a fuelled backtracking
matcher implementing the JavaScript semantics (leftmost match; greedy
quantifiers preferring longer repetitions; an optional group preferring
presence), so that concrete match lists can be computed. -/

/-- A character class `[-.\s]` of the phone regex. -/
def isSepChar (c : Char) : Bool :=
  c = '-' || c = '.' || isJsWhitespace c

/-- One element of the phone regex: a greedily quantified character class
`cls p lo hi`, or the optional greedy group `optGroup items`. -/
inductive RegexItem where
  | cls (p : Char → Bool) (lo hi : Nat)
  | optGroup (items : List RegexItem)

/-- The phone regex of `extractContactInfo`, item by item. -/
def phoneRegex : List RegexItem :=
  [ RegexItem.optGroup
      [ RegexItem.cls (fun c => c = '+') 0 1,
        RegexItem.cls Char.isDigit 1 4,
        RegexItem.cls isSepChar 0 1 ],
    RegexItem.cls (fun c => c = '(') 0 1,
    RegexItem.cls Char.isDigit 1 4,
    RegexItem.cls (fun c => c = ')') 0 1,
    RegexItem.cls isSepChar 0 1,
    RegexItem.cls Char.isDigit 1 4,
    RegexItem.cls isSepChar 0 1,
    RegexItem.cls Char.isDigit 1 9 ]

/-- Try the candidate repetition counts in the given order, returning the
first success. -/
def firstSome (f : Nat → Option (List Char)) : List Nat → Option (List Char)
  | [] => none
  | k :: ks =>
    match f k with
    | some r => some r
    | none => firstSome f ks

/-- Fuelled backtracking matcher: `matchSeq fuel items cs` returns the
suffix of `cs` left over after the items match a prefix of `cs`, trying
alternatives in the JavaScript preference order (greedy classes from the
longest repetition down, optional group present before absent). -/
def matchSeq : Nat → List RegexItem → List Char → Option (List Char)
  | 0, _, _ => none
  | _ + 1, [], cs => some cs
  | fuel + 1, RegexItem.cls p lo hi :: rest, cs =>
    let avail := min (cs.takeWhile p).length hi
    firstSome
      (fun k => if lo ≤ k then matchSeq fuel rest (cs.drop k) else none)
      ((List.range (avail + 1)).reverse)
  | fuel + 1, RegexItem.optGroup g :: rest, cs =>
    match matchSeq fuel (g ++ rest) cs with
    | some r => some r
    | none => matchSeq fuel rest cs

/-- Leftmost match: try the regex at each start position from the left,
returning the matched characters and the remaining suffix. -/
def findPhoneMatch : Nat → List Char → Option (List Char × List Char)
  | 0, _ => none
  | fuel + 1, cs =>
    match matchSeq 100 phoneRegex cs with
    | some rest => some (cs.take (cs.length - rest.length), rest)
    | none =>
      match cs with
      | [] => none
      | _ :: cs' => findPhoneMatch fuel cs'

/-- All matches of the global regex, in order, as produced by
`pageText.match(phoneRegex)` (each search resumes after the previous
match; the regex cannot match the empty string, so no extra advance is
needed). -/
def phoneMatches : Nat → List Char → List String
  | 0, _ => []
  | fuel + 1, cs =>
    match findPhoneMatch (cs.length + 1) cs with
    | none => []
    | some (m, rest) => String.mk m :: phoneMatches fuel rest

/-- `phone.replace(/[^\d+]/g, '')`: strip everything that is neither a
digit nor a plus sign. -/
def cleanPhone (phone : String) : String :=
  String.mk (phone.data.filter (fun c => c.isDigit || c = '+'))

/-- The per-match decision of `extractContactInfo`: the match is retained
when its stripped form has length at least 7. -/
def phoneKept (phone : String) : Bool :=
  7 ≤ (cleanPhone phone).length

/-- The `phones.forEach` loop: add each retained match, trimmed, to the
phone set (a JavaScript `Set` keeps insertion order and drops exact
duplicates). -/
def collectPhones (ms : List String) : List String :=
  ms.foldl
    (fun acc phone =>
      if phoneKept phone then
        if trimStr phone ∈ acc then acc else acc ++ [trimStr phone]
      else acc)
    []

/-- The phone numbers one page contributes: run the regex over the page
text, then the retention loop. -/
def phonesFromText (text : String) : List String :=
  collectPhones (phoneMatches (text.data.length + 1) text.data)

/-- The digit-only form of a match, every non-digit character stripped —
the quantity the specification claims is compared against 7. -/
def digitsOnly (phone : String) : String :=
  String.mk (phone.data.filter Char.isDigit)

/-! ## GoogleSearcher.isValidUrl (src/src/googleSearcher.js, lines 220-254)

`new URL(url)` either throws (modelled as `none`) or yields an object whose
`protocol` field is the scheme followed by a colon (e.g. `"https:"`) and
whose `hostname` field is the parsed host.  The WHATWG parser accepts
non-special schemes such as `httpx:`, which matters below. -/

/-- The outcome of `new URL(url)`: the two fields the filter reads. -/
structure ParsedUrl where
  protocol : String
  hostname : String
deriving DecidableEq

/-- `excludeDomains` from `GoogleSearcher.isValidUrl`, in source order. -/
def excludeDomains : List String :=
  [ "google.com", "youtube.com", "facebook.com", "twitter.com",
    "linkedin.com", "instagram.com", "pinterest.com", "reddit.com",
    "wikipedia.org", "amazon.com", "ebay.com", "craigslist.org" ]

/-- `GoogleSearcher.isValidUrl` on the parse outcome: an unparsable URL is
rejected (the catch branch); otherwise the host must avoid the exclusion
list (substring or suffix), the protocol must start with `http`, the host
must contain a dot and must not contain `localhost`. -/
def isValidUrl (parsed : Option ParsedUrl) : Bool :=
  match parsed with
  | none => false
  | some u =>
    let hostname := lowerStr u.hostname
    let isExcluded := excludeDomains.any
      (fun domain => strContains hostname domain || strEndsWith hostname domain)
    !isExcluded && strStartsWith u.protocol "http" &&
      strContains hostname "." && !(strContains hostname "localhost")

/-! ## Social media link capture (src/src/emailExtractor.js, lines 126-134)

Cheerio hands the matching anchors (those whose `href` contains one of the
four platform domains) to the callback in document order; the callback
reclassifies the `href` by the bare platform name and overwrites
`socialMedia[platform]`. -/

/-- The classification keys used by the callback. -/
inductive Platform where
  | facebook
  | twitter
  | linkedin
  | instagram
  | other
deriving DecidableEq

/-- The anchor selector: `href` contains one of the four platform domains. -/
def anchorMatchesSocial (href : String) : Bool :=
  strContains href "facebook.com" || strContains href "twitter.com" ||
  strContains href "linkedin.com" || strContains href "instagram.com"

/-- The nested conditional classifying an `href` inside the callback. -/
def classifySocial (href : String) : Platform :=
  if strContains href "facebook" then Platform.facebook
  else if strContains href "twitter" then Platform.twitter
  else if strContains href "linkedin" then Platform.linkedin
  else if strContains href "instagram" then Platform.instagram
  else Platform.other

/-- The `contactInfo.socialMedia` object: at most one link per platform. -/
structure SocialMedia where
  facebook : Option String
  twitter : Option String
  linkedin : Option String
  instagram : Option String
  other : Option String
deriving DecidableEq

/-- The empty social-media object. -/
def SocialMedia.empty : SocialMedia := ⟨none, none, none, none, none⟩

/-- Read one platform's entry. -/
def SocialMedia.get (m : SocialMedia) : Platform → Option String
  | Platform.facebook => m.facebook
  | Platform.twitter => m.twitter
  | Platform.linkedin => m.linkedin
  | Platform.instagram => m.instagram
  | Platform.other => m.other

/-- `socialMedia[platform] = href`: overwrite one platform's entry. -/
def SocialMedia.set (m : SocialMedia) (p : Platform) (href : String) : SocialMedia :=
  match p with
  | Platform.facebook => { m with facebook := some href }
  | Platform.twitter => { m with twitter := some href }
  | Platform.linkedin => { m with linkedin := some href }
  | Platform.instagram => { m with instagram := some href }
  | Platform.other => { m with other := some href }

/-- The `each` loop over the page's anchors in document order: anchors that
miss the selector are untouched, matching anchors overwrite their
platform's entry. -/
def collectSocial (anchors : List String) (m : SocialMedia) : SocialMedia :=
  anchors.foldl
    (fun acc href =>
      if anchorMatchesSocial href then acc.set (classifySocial href) href else acc)
    m

/-! ## WordPressProspector.generateSummary (src/unnamed/part_001, lines 386-412)

JavaScript stores `site.isWordPress` either as a boolean (after
validation) or as the string `'not_validated'` (when the Validate stage is
skipped, line 208); we model this tri-state value.  The summary's rates go
through `toFixed(1)`, modelled as exact rational arithmetic rounded
half-up to one decimal place. -/

/-- The possible values of `site.isWordPress` in the pipeline: the two
booleans, or the string tag `'not_validated'`. -/
inductive Verdict3 where
  | isTrue
  | isFalse
  | notValidated
deriving DecidableEq

/-- JavaScript truthiness of the `isWordPress` value: `true` is truthy,
`false` is falsy, and the non-empty string `'not_validated'` is truthy. -/
def jsTruthy : Verdict3 → Bool
  | Verdict3.isTrue => true
  | Verdict3.isFalse => false
  | Verdict3.notValidated => true

/-- An entry of `pipeline.wordpressSites`. -/
structure Site where
  url : String
  isWordPress : Verdict3
deriving DecidableEq

/-- An entry of `pipeline.contactData` (only the fields the summary
reads). -/
structure ContactLite where
  url : String
  emails : List String
deriving DecidableEq

/-- `x.toFixed(1)` on a non-negative value: round half-up to one decimal
place. -/
def roundTenth (q : ℚ) : ℚ :=
  ((⌊q * 10 + 1 / 2⌋ : ℤ) : ℚ) / 10

/-- The JavaScript `Set` accumulation: deduplicate keeping first
occurrences. -/
def dedupStrings (l : List String) : List String :=
  l.foldl (fun acc e => if e ∈ acc then acc else acc ++ [e]) []

/-- The summary object built by `WordPressProspector.generateSummary`. -/
structure Summary where
  totalSearchResults : Nat
  sitesValidated : Nat
  confirmedWordPressSites : Nat
  sitesWithContactInfo : Nat
  totalEmails : Nat
  wordpressDetectionRate : ℚ
  avgEmailsPerSite : ℚ
  uniqueEmails : Nat
deriving DecidableEq

/-- `WordPressProspector.generateSummary` on the three pipeline
collections; `confirmedWordPressSites` uses the strict comparison
`site.isWordPress === true` of the source. -/
def generateSummary (searchResults : List SearchResult) (wordpressSites : List Site)
    (contactData : List ContactLite) : Summary :=
  let sitesValidated := wordpressSites.length
  let confirmed :=
    (wordpressSites.filter (fun s => decide (s.isWordPress = Verdict3.isTrue))).length
  let sitesWith := (contactData.filter (fun s => decide (0 < s.emails.length))).length
  let totalEmails := contactData.foldl (fun sum s => sum + s.emails.length) 0
  { totalSearchResults := searchResults.length
    sitesValidated := sitesValidated
    confirmedWordPressSites := confirmed
    sitesWithContactInfo := sitesWith
    totalEmails := totalEmails
    wordpressDetectionRate :=
      if 0 < sitesValidated then roundTenth ((confirmed : ℚ) / (sitesValidated : ℚ) * 100)
      else 0
    avgEmailsPerSite :=
      if 0 < sitesWith then roundTenth ((totalEmails : ℚ) / (sitesWith : ℚ))
      else 0
    uniqueEmails :=
      (dedupStrings (contactData.foldl (fun acc s => acc ++ s.emails) [])).length }

/-- Three validated sites, one of them confirmed WordPress. -/
def sites3 : List Site :=
  [ ⟨"https://a.com", Verdict3.isTrue⟩,
    ⟨"https://b.com", Verdict3.isFalse⟩,
    ⟨"https://c.com", Verdict3.isFalse⟩ ]

/-! ## Skipping the Validate stage (src/unnamed/part_001 line 208, line 390;
src/src/dataExporter.js lines 47-80)

When `validateWordPress` is off the pipeline forwards every discovered URL
as `{ url, isWordPress: 'not_validated' }`.  The summary counts confirmed
sites with the strict `site.isWordPress === true`; the CSV exporter however
renders `site.isWordPress ? 'Yes' : 'No'`, a truthiness test. -/

/-- Line 208: `urls.map(url => ({ url, isWordPress: 'not_validated' }))`. -/
def forwardUnvalidated (urls : List String) : List Site :=
  urls.map (fun url => ⟨url, Verdict3.notValidated⟩)

/-- The `wordpressDetected` column of one CSV row
(`site.isWordPress ? 'Yes' : 'No'` in `DataExporter.exportToCSV`). -/
def csvWordpressDetected (s : Site) : String :=
  if jsTruthy s.isWordPress then "Yes" else "No"

/-! ## WordPressScraper.scrapeWebsite / scrapeBatch (src/unnamed/part_002, lines 24-107)

`scrapeWebsite` awaits the detector and then the contact extractor; either
await may reject, and the surrounding try/catch converts a rejection into
an error record (with `isWordPress: false`).  We model the two awaited
outcomes per URL.  `scrapeBatch` pushes `scrapeWebsite`'s result exactly
when it is non-null, so it is a `filterMap`; since the modelled
`scrapeWebsite` never throws, the outer catch of the batch loop is
unreachable. -/

/-- What the extractor returns for a site (the fields the scraper copies). -/
structure ContactInfo where
  emails : List String
  phones : List String
deriving DecidableEq

/-- One URL together with the outcomes of its two awaited calls. -/
structure ScrapeInput where
  url : String
  detect : Except String WPResult
  extract : Except String ContactInfo

/-- The record `scrapeWebsite` resolves with (when non-null). -/
structure ScrapeRecord where
  url : String
  isWordPress : Bool
  emails : List String
  phones : List String
  error : Option String
deriving DecidableEq

/-- `WordPressScraper.scrapeWebsite`: detection failure gives the catch
branch's error record; a non-WordPress verdict under `onlyWordPress` gives
`null`; extraction failure gives the error record; otherwise the contact
data merged with the verdict. -/
def scrapeWebsite (onlyWordPress : Bool) (inp : ScrapeInput) : Option ScrapeRecord :=
  match inp.detect with
  | Except.error msg => some ⟨inp.url, false, [], [], some msg⟩
  | Except.ok wp =>
    if !wp.isWordPress && onlyWordPress then none
    else
      match inp.extract with
      | Except.error msg => some ⟨inp.url, false, [], [], some msg⟩
      | Except.ok contact => some ⟨inp.url, wp.isWordPress, contact.emails, contact.phones, none⟩

/-- `WordPressScraper.scrapeBatch`: process the URLs in order, pushing each
non-null result. -/
def scrapeBatch (onlyWordPress : Bool) (inputs : List ScrapeInput) : List ScrapeRecord :=
  inputs.filterMap (scrapeWebsite onlyWordPress)

/-- A WordPress site and a non-WordPress site, both reachable. -/
def scrapeInputs2 : List ScrapeInput :=
  [ ⟨"https://wp.com", Except.ok ⟨true, some "/wp-content/", Confidence.high⟩,
      Except.ok ⟨[ "owner@wp.com" ], []⟩⟩,
    ⟨"https://plain.com", Except.ok ⟨false, none, Confidence.high⟩,
      Except.ok ⟨[], []⟩⟩ ]

/-! ## Theorems -/

theorem dedupAux_idem (rs : List SearchResult) :
    ∀ seen, dedupAux seen (dedupAux seen rs) = dedupAux seen rs := by
  induction rs with
  | nil => intro seen; rfl
  | cons r rs ih =>
    intro seen
    by_cases h : lowerStr r.url ∈ seen
    · simp only [dedupAux, if_pos h]
      exact ih seen
    · simp only [dedupAux, if_neg h, List.mem_cons, true_or, if_pos]
      rw [ih (lowerStr r.url :: seen)]

/-- C6: deduplication of search results is idempotent: applying
`deduplicateResults` twice yields the same sequence as applying it once. -/
theorem deduplicateResults_idempotent (results : List SearchResult) :
    deduplicateResults (deduplicateResults results) = deduplicateResults results :=
  dedupAux_idem results []

/-- C3: if the lower-cased raw body contains some indicator string, the
verdict is `isWordPress = true`, `confidence = high`, carrying the first
matching indicator, whatever the rest of the page looks like (the indicator
loop short-circuits every later heuristic); and if no heuristic at all
matches, the verdict is `isWordPress = false`, `indicator = none`,
`confidence = high`. -/
theorem isWordPressSite_spec (p : DetectPage) :
    (∀ ind,
        indicators.find? (fun i => strContains (lowerStr p.body) (lowerStr i)) = some ind →
        isWordPressSite p = ⟨true, some ind, Confidence.high⟩) ∧
    (noHeuristicMatches p → isWordPressSite p = ⟨false, none, Confidence.high⟩) := by
  constructor
  · intro ind h
    simp only [isWordPressSite, h]
  · rintro ⟨h1, h2, h3, h4, h5⟩
    simp only [isWordPressSite, h1, h2, h3, h4, h5]
    rfl

/-- Witness for C3 at concrete inputs: the mixed-case `/WP-Content/` page is
detected as WordPress with the first indicator `/wp-content/` and high
confidence, and the signal-free page yields the negative high-confidence
verdict. -/
theorem isWordPressSite_spec_witness :
    isWordPressSite wpPage = ⟨true, some "/wp-content/", Confidence.high⟩ ∧
    isWordPressSite plainPage = ⟨false, none, Confidence.high⟩ :=
  ⟨(isWordPressSite_spec wpPage).1 "/wp-content/" (by decide),
   (isWordPressSite_spec plainPage).2 (by refine ⟨by decide, by decide, rfl, rfl, by decide⟩)⟩

/-- C4: batch detection never loses or reorders entries — the output has
exactly one record per input URL, the record at position `i` carries the
URL of input `i`, and an input whose detection failed yields the
`confidence = unknown` record with the attached error message. -/
theorem checkWordPressBatch_total (entries : List BatchEntry) :
    (checkWordPressBatch entries).length = entries.length ∧
    (∀ (i : Nat) (e : BatchEntry), entries[i]? = some e →
      ∃ r, (checkWordPressBatch entries)[i]? = some r ∧ r.url = e.url ∧
        (∀ msg, e.outcome = Except.error msg →
          r = ⟨e.url, false, none, Confidence.unknown, some msg⟩)) := by
  constructor
  · simp [checkWordPressBatch]
  · intro i e he
    refine ⟨batchRecordOf e, ?_, ?_, ?_⟩
    · simp [checkWordPressBatch, he]
    · cases h : e.outcome <;> simp [batchRecordOf, h]
    · intro msg hmsg
      simp [batchRecordOf, hmsg]

/-- Witness for C4: one unreachable URL among 3 still produces 3 records,
and the failed entry is error-tagged with unknown confidence. -/
theorem checkWordPressBatch_total_witness :
    (checkWordPressBatch batch3).length = 3 ∧
    (checkWordPressBatch batch3)[1]? =
      some ⟨"https://two.com", false, none, Confidence.unknown, some "connect ETIMEDOUT"⟩ := by
  have h := checkWordPressBatch_total batch3
  refine ⟨h.1, ?_⟩
  obtain ⟨r, hr, -, herr⟩ := h.2 1 ⟨"https://two.com", Except.error "connect ETIMEDOUT"⟩ rfl
  rw [herr "connect ETIMEDOUT" rfl] at hr
  exact hr

/-- C2 counterexample: on a page reading `+123-456` the phone regex matches
the whole text `+123-456`, whose digit-only form has length 6, yet the
match is retained — the source counts the leading `+` as well
(`replace(/[^\d+]/g, '')`), so its stripped form has length 7 and the
claimed discarding of every match with at most 6 digits fails. -/
theorem phoneKept_sixDigit_counterexample :
    phonesFromText "+123-456" = [ "+123-456" ] ∧
    (digitsOnly "+123-456").length = 6 ∧
    phoneKept "+123-456" = true := by
  refine ⟨?_, by decide, by decide⟩
  rfl

/-- C2 as amended: a string enters the page's phone list exactly when it is
the trimmed form of some regex match whose stripped form — digits and plus
signs — has length at least 7; retained numbers keep their original matched
formatting apart from the trim. -/
theorem collectPhones_mem (ms0 : List String) (p : String) :
    p ∈ collectPhones ms0 ↔
      ∃ m, m ∈ ms0 ∧ phoneKept m = true ∧ p = trimStr m := by
  have key : ∀ (ms : List String) (acc : List String),
      p ∈ ms.foldl
          (fun acc phone =>
            if phoneKept phone then
              if trimStr phone ∈ acc then acc else acc ++ [trimStr phone]
            else acc) acc ↔
        (p ∈ acc ∨ ∃ m, m ∈ ms ∧ phoneKept m = true ∧ p = trimStr m) := by
    intro ms
    induction ms with
    | nil => simp
    | cons m ms ih =>
      intro acc
      by_cases hk : phoneKept m
      · by_cases hmem : trimStr m ∈ acc
        · simp only [List.foldl_cons, if_pos hk, if_pos hmem, ih, List.mem_cons]
          constructor
          · rintro (h | h)
            · exact Or.inl h
            · exact Or.inr (by obtain ⟨x, hx, hkx, hpx⟩ := h; exact ⟨x, Or.inr hx, hkx, hpx⟩)
          · rintro (h | ⟨x, hx | hx, hkx, hpx⟩)
            · exact Or.inl h
            · subst hx; exact Or.inl (hpx ▸ hmem)
            · exact Or.inr ⟨x, hx, hkx, hpx⟩
        · simp only [List.foldl_cons, if_pos hk, if_neg hmem, ih, List.mem_append,
            List.mem_singleton, List.mem_cons, List.not_mem_nil, or_false]
          constructor
          · rintro ((h | h) | h)
            · exact Or.inl h
            · exact Or.inr ⟨m, Or.inl rfl, hk, h⟩
            · exact Or.inr (by obtain ⟨x, hx, hkx, hpx⟩ := h; exact ⟨x, Or.inr hx, hkx, hpx⟩)
          · rintro (h | ⟨x, hx | hx, hkx, hpx⟩)
            · exact Or.inl (Or.inl h)
            · subst hx; exact Or.inl (Or.inr hpx)
            · exact Or.inr ⟨x, hx, hkx, hpx⟩
      · simp only [List.foldl_cons, if_neg hk, ih, List.mem_cons]
        constructor
        · rintro (h | h)
          · exact Or.inl h
          · exact Or.inr (by obtain ⟨x, hx, hkx, hpx⟩ := h; exact ⟨x, Or.inr hx, hkx, hpx⟩)
        · rintro (h | ⟨x, hx | hx, hkx, hpx⟩)
          · exact Or.inl h
          · exact absurd hkx (by subst hx; simp [hk])
          · exact Or.inr ⟨x, hx, hkx, hpx⟩
  simpa using key ms0 []

/-- Witness for the amended C2 at a concrete input: a 7-digit match is
retained in its trimmed original formatting. -/
theorem collectPhones_mem_witness :
    "555-123-4567" ∈ collectPhones [ " 555-123-4567 " ] :=
  (collectPhones_mem [ " 555-123-4567 " ] "555-123-4567").mpr
    ⟨" 555-123-4567 ", by decide, by decide, by decide⟩

/-- C7 counterexample: the filter accepts `httpx://example.org` — the
source tests `urlObj.protocol.startsWith('http')`, which is satisfied by
the non-http scheme `httpx`, so the claim that every URL whose scheme is
neither http nor https is rejected fails. -/
theorem isValidUrl_accepts_httpx_scheme :
    isValidUrl (some ⟨"httpx:", "example.org"⟩) = true ∧
    ("httpx:" = "http:" ∨ "httpx:" = "https:") = False := by
  constructor
  · decide
  · simp

/-- C7 as amended: the filter accepts exactly the parsable URLs whose
protocol starts with `http` (so `https:` but also any other scheme with
that prefix), whose lower-cased host contains a dot, does not contain
`localhost` as a substring, and neither contains nor ends with any entry of
the exclusion-domain list; an unparsable URL is always rejected. -/
theorem isValidUrl_iff (u : ParsedUrl) :
    (isValidUrl none = false) ∧
    (isValidUrl (some u) = true ↔
      (strStartsWith u.protocol "http" = true ∧
       strContains (lowerStr u.hostname) "." = true ∧
       strContains (lowerStr u.hostname) "localhost" = false ∧
       ∀ domain ∈ excludeDomains,
         strContains (lowerStr u.hostname) domain = false ∧
         strEndsWith (lowerStr u.hostname) domain = false)) := by
  refine ⟨rfl, ?_⟩
  simp only [isValidUrl, Bool.and_eq_true, Bool.not_eq_true', List.any_eq_false,
    Bool.not_eq_true, Bool.or_eq_false_iff]
  constructor
  · rintro ⟨⟨⟨hex, hp⟩, hdot⟩, hloc⟩
    exact ⟨hp, hdot, hloc, hex⟩
  · rintro ⟨hp, hdot, hloc, hex⟩
    exact ⟨⟨⟨hex, hp⟩, hdot⟩, hloc⟩

/-- Witness for the amended C7 at a concrete input: a plain https business
domain passes the filter. -/
theorem isValidUrl_iff_witness :
    isValidUrl (some ⟨"https:", "smallbusiness.net"⟩) = true :=
  (isValidUrl_iff ⟨"https:", "smallbusiness.net"⟩).2.mpr (by decide)

theorem SocialMedia.get_set_same (m : SocialMedia) (p : Platform) (href : String) :
    (m.set p href).get p = some href := by
  cases p <;> rfl

theorem SocialMedia.get_set_other (m : SocialMedia) (p q : Platform) (href : String)
    (h : p ≠ q) : (m.set p href).get q = m.get q := by
  cases p <;> cases q <;> first | rfl | exact absurd rfl h

theorem collectSocial_get (p : Platform) :
    ∀ (anchors : List String) (m : SocialMedia),
      (collectSocial anchors m).get p =
        match (anchors.filter
            (fun a => anchorMatchesSocial a && decide (classifySocial a = p))).getLast? with
        | some a => some a
        | none => m.get p := by
  intro anchors
  induction anchors with
  | nil => intro m; rfl
  | cons a anchors ih =>
    intro m
    by_cases hsel : anchorMatchesSocial a
    · by_cases hcls : classifySocial a = p
      · have hfilter : (a :: anchors).filter
            (fun x => anchorMatchesSocial x && decide (classifySocial x = p)) =
            a :: anchors.filter
              (fun x => anchorMatchesSocial x && decide (classifySocial x = p)) := by
          simp [List.filter_cons, hsel, hcls]
        simp only [collectSocial, List.foldl_cons, if_pos hsel, hfilter]
        rw [show SocialMedia.set m (classifySocial a) a = m.set p a by rw [hcls]]
        have := ih (m.set p a)
        simp only [collectSocial] at this
        rw [this]
        cases hlast : (anchors.filter
            (fun x => anchorMatchesSocial x && decide (classifySocial x = p))).getLast? with
        | some b => simp [List.getLast?_cons, hlast, List.getLastD, SocialMedia.get_set_same]
        | none => simp [List.getLast?_cons, hlast, List.getLastD, SocialMedia.get_set_same]
      · have hfilter : (a :: anchors).filter
            (fun x => anchorMatchesSocial x && decide (classifySocial x = p)) =
            anchors.filter
              (fun x => anchorMatchesSocial x && decide (classifySocial x = p)) := by
          simp [List.filter_cons, hcls]
        simp only [collectSocial, List.foldl_cons, if_pos hsel, hfilter]
        have := ih (m.set (classifySocial a) a)
        simp only [collectSocial] at this
        rw [this, SocialMedia.get_set_other _ _ _ _ hcls]
    · have hfilter : (a :: anchors).filter
          (fun x => anchorMatchesSocial x && decide (classifySocial x = p)) =
          anchors.filter
            (fun x => anchorMatchesSocial x && decide (classifySocial x = p)) := by
        simp [List.filter_cons, hsel]
      simp only [collectSocial, List.foldl_cons, if_neg hsel, hfilter]
      have := ih m
      simp only [collectSocial] at this
      rw [this]

/-- C8: for every platform, the page's social-media entry after the anchor
loop is exactly the last anchor in document order that passes the selector
and classifies to that platform (so a later Facebook link overwrites every
earlier one); if no anchor matches the platform the entry is untouched
(absent when starting from the empty record). -/
theorem collectSocial_last_wins (anchors : List String) (p : Platform) :
    (collectSocial anchors SocialMedia.empty).get p =
      (anchors.filter
        (fun a => anchorMatchesSocial a && decide (classifySocial a = p))).getLast? := by
  rw [collectSocial_get p anchors SocialMedia.empty]
  cases (anchors.filter
      (fun a => anchorMatchesSocial a && decide (classifySocial a = p))).getLast? with
  | some a => rfl
  | none => cases p <;> rfl

/-- Rounding to one decimal place moves the value by at most `1/20`. -/
theorem roundTenth_close (q : ℚ) : |roundTenth q - q| ≤ 1 / 20 := by
  have h : |q * 10 - round (q * 10)| ≤ 1 / 2 := abs_sub_round (q * 10)
  have h' : |(round (q * 10) : ℚ) - q * 10| ≤ 1 / 2 := by rwa [abs_sub_comm] at h
  have hrw : roundTenth q - q = ((round (q * 10) : ℚ) - q * 10) / 10 := by
    rw [roundTenth, ← round_eq]
    ring
  rw [hrw, abs_div]
  have h10 : |(10 : ℚ)| = 10 := by norm_num
  rw [h10]
  linarith

/-- C5 counterexample: with 1 confirmed site out of 3 validated the exact
rate `confirmed/validated × 100` is `100/3`, but the summary stores the
`toFixed(1)` value `33.3`, so the two are not equal. -/
theorem detectionRate_not_exact :
    (generateSummary [] sites3 []).wordpressDetectionRate = 333 / 10 ∧
    (generateSummary [] sites3 []).wordpressDetectionRate ≠ (1 : ℚ) / 3 * 100 := by
  have hfloor : (⌊(1 : ℚ) / 3 * 100 * 10 + 1 / 2⌋ : ℤ) = 333 := by
    rw [Int.floor_eq_iff]
    constructor <;> norm_num
  have h1 : (sites3.filter (fun s => decide (s.isWordPress = Verdict3.isTrue))).length = 1 := rfl
  have h2 : sites3.length = 3 := rfl
  have hrate : (generateSummary [] sites3 []).wordpressDetectionRate =
      roundTenth ((1 : ℚ) / 3 * 100) := by
    simp only [generateSummary, h1, h2]
    norm_num
  rw [hrate]
  simp only [roundTenth, hfloor]
  constructor
  · norm_num
  · norm_num

/-- C5 as amended: with no validated sites the detection rate is exactly 0
(the guarded branch, no division happens); with a positive count it is the
exact rate `confirmed/validated × 100` rounded to one decimal place, hence
within `1/20` of the exact rate. -/
theorem generateSummary_detectionRate (searchResults : List SearchResult)
    (wordpressSites : List Site) (contactData : List ContactLite) :
    (wordpressSites.length = 0 →
      (generateSummary searchResults wordpressSites contactData).wordpressDetectionRate = 0) ∧
    (0 < wordpressSites.length →
      (generateSummary searchResults wordpressSites contactData).wordpressDetectionRate =
        roundTenth
          (((generateSummary searchResults wordpressSites contactData).confirmedWordPressSites : ℚ) /
            (wordpressSites.length : ℚ) * 100) ∧
      |(generateSummary searchResults wordpressSites contactData).wordpressDetectionRate -
          ((generateSummary searchResults wordpressSites contactData).confirmedWordPressSites : ℚ) /
            (wordpressSites.length : ℚ) * 100| ≤ 1 / 20) := by
  constructor
  · intro h
    simp [generateSummary, h]
  · intro h
    refine ⟨by simp [generateSummary, if_pos h], ?_⟩
    have := roundTenth_close
      (((wordpressSites.filter (fun s => decide (s.isWordPress = Verdict3.isTrue))).length : ℚ) /
        (wordpressSites.length : ℚ) * 100)
    simpa [generateSummary, if_pos h] using this

/-- Witness for C5 at concrete inputs: an empty validation set yields rate
0, and 1 confirmed out of 3 yields the rounded rate within `1/20` of
`100/3`. -/
theorem generateSummary_detectionRate_witness :
    (generateSummary [] ([] : List Site) []).wordpressDetectionRate = 0 ∧
    ((generateSummary [] sites3 []).wordpressDetectionRate =
      roundTenth (((generateSummary [] sites3 []).confirmedWordPressSites : ℚ) /
        ((sites3.length : ℚ)) * 100) ∧
     |(generateSummary [] sites3 []).wordpressDetectionRate -
        ((generateSummary [] sites3 []).confirmedWordPressSites : ℚ) /
          ((sites3.length : ℚ)) * 100| ≤ 1 / 20) :=
  ⟨(generateSummary_detectionRate [] [] []).1 rfl,
   (generateSummary_detectionRate [] sites3 []).2 (by decide)⟩

/-- C9 counterexample: a forwarded `not_validated` record, handed to the
CSV exporter, is rendered `Yes` in the WordPress-detected column — the
string tag is truthy, so the export renders it exactly like a confirmed
`true` verdict, contradicting that the tag is never rendered as a positive
detection. -/
theorem notValidated_rendered_positive :
    forwardUnvalidated [ "https://a.com" ] = [ ⟨"https://a.com", Verdict3.notValidated⟩ ] ∧
    csvWordpressDetected ⟨"https://a.com", Verdict3.notValidated⟩ = "Yes" ∧
    csvWordpressDetected ⟨"https://a.com", Verdict3.isTrue⟩ = "Yes" := by
  refine ⟨rfl, rfl, rfl⟩

/-- C9 as amended: skipping Validate forwards every discovered URL tagged
`not_validated`, and in the summary the tag is kept distinct from the
boolean verdicts — such a record is never counted as a confirmed platform
site (the count uses strict equality with `true`); the CSV export however
tests truthiness, so it renders the tag identically to a positive
detection. -/
theorem skipValidation_tagging (urls : List String) :
    (forwardUnvalidated urls).length = urls.length ∧
    (∀ s ∈ forwardUnvalidated urls, s.isWordPress = Verdict3.notValidated) ∧
    (generateSummary [] (forwardUnvalidated urls) []).confirmedWordPressSites = 0 ∧
    (∀ s : Site, s.isWordPress = Verdict3.notValidated →
      csvWordpressDetected s = csvWordpressDetected ⟨s.url, Verdict3.isTrue⟩) := by
  refine ⟨by simp [forwardUnvalidated], ?_, ?_, ?_⟩
  · intro s hs
    obtain ⟨url, -, rfl⟩ := List.mem_map.mp hs
    rfl
  · have : (forwardUnvalidated urls).filter
        (fun s => decide (s.isWordPress = Verdict3.isTrue)) = [] := by
      induction urls with
      | nil => rfl
      | cons u us ih => simp [forwardUnvalidated, List.filter_cons]
    simp [generateSummary, this]
  · intro s hs
    simp [csvWordpressDetected, hs, jsTruthy]

/-- Witness for C9 at a concrete input: the forwarded record for one URL is
tagged `not_validated`, and its CSV rendering coincides with that of a
`true` verdict. -/
theorem skipValidation_tagging_witness :
    (Site.mk "https://a.com" Verdict3.notValidated).isWordPress = Verdict3.notValidated ∧
    csvWordpressDetected ⟨"https://a.com", Verdict3.notValidated⟩ =
      csvWordpressDetected ⟨"https://a.com", Verdict3.isTrue⟩ :=
  ⟨(skipValidation_tagging [ "https://a.com" ]).2.1
      ⟨"https://a.com", Verdict3.notValidated⟩ (by simp [forwardUnvalidated]),
   (skipValidation_tagging [ "https://a.com" ]).2.2.2
      ⟨"https://a.com", Verdict3.notValidated⟩ rfl⟩

theorem scrapeWebsite_false_isSome (inp : ScrapeInput) :
    ∃ r, scrapeWebsite false inp = some r ∧ r.url = inp.url := by
  unfold scrapeWebsite
  cases inp.detect with
  | error msg => exact ⟨_, rfl, rfl⟩
  | ok wp =>
    simp only [Bool.and_false, Bool.false_eq_true, if_false]
    cases inp.extract with
    | error msg => exact ⟨_, rfl, rfl⟩
    | ok contact => exact ⟨_, rfl, rfl⟩

/-- C10: with `onlyWordPress = false` the batch returns exactly one record
per input URL, in order (every URL yields a record, successful or
error-tagged); with `onlyWordPress = true` a URL whose detection verdict is
negative yields no record at all, so whenever such a URL is present the
output is strictly shorter than the input. -/
theorem scrapeBatch_record_counts (inputs : List ScrapeInput) :
    ((scrapeBatch false inputs).length = inputs.length ∧
      (scrapeBatch false inputs).map (fun r => r.url) = inputs.map (fun i => i.url)) ∧
    (∀ inp wp, inp.detect = Except.ok wp → wp.isWordPress = false →
      scrapeWebsite true inp = none) ∧
    (∀ inp ∈ inputs, scrapeWebsite true inp = none →
      (scrapeBatch true inputs).length < inputs.length) := by
  refine ⟨?_, ?_, ?_⟩
  · induction inputs with
    | nil => exact ⟨rfl, rfl⟩
    | cons inp inputs ih =>
      obtain ⟨r, hr, hurl⟩ := scrapeWebsite_false_isSome inp
      simp only [scrapeBatch, List.filterMap_cons, hr, List.length_cons, List.map_cons, hurl]
      exact ⟨by rw [← ih.1]; rfl, by rw [show (List.filterMap (scrapeWebsite false) inputs).map
        (fun r => r.url) = inputs.map (fun i => i.url) from ih.2]⟩
  · intro inp wp hdet hwp
    simp [scrapeWebsite, hdet, hwp]
  · intro inp hmem hnone
    induction inputs with
    | nil => cases hmem
    | cons x inputs ih =>
      rcases List.mem_cons.mp hmem with rfl | hmem'
      · simp only [scrapeBatch, List.filterMap_cons, hnone, List.length_cons]
        exact Nat.lt_succ_of_le (List.length_filterMap_le _ _)
      · cases hx : scrapeWebsite true x with
        | none =>
          simp only [scrapeBatch, List.filterMap_cons, hx, List.length_cons]
          exact Nat.lt_succ_of_le (List.length_filterMap_le _ _)
        | some r =>
          simp only [scrapeBatch, List.filterMap_cons, hx, List.length_cons]
          exact Nat.succ_lt_succ (ih hmem')

/-- Witness for C10 at a concrete input: with the filter off both URLs
yield records; with the filter on, the non-WordPress URL is dropped and the
batch output is shorter than the input. -/
theorem scrapeBatch_record_counts_witness :
    (scrapeBatch false scrapeInputs2).length = 2 ∧
    scrapeWebsite true ⟨"https://plain.com", Except.ok ⟨false, none, Confidence.high⟩,
      Except.ok ⟨[], []⟩⟩ = none ∧
    (scrapeBatch true scrapeInputs2).length < 2 := by
  have h := scrapeBatch_record_counts scrapeInputs2
  have hnone := h.2.1 ⟨"https://plain.com", Except.ok ⟨false, none, Confidence.high⟩,
      Except.ok ⟨[], []⟩⟩ ⟨false, none, Confidence.high⟩ rfl rfl
  exact ⟨h.1.1, hnone,
    h.2.2 ⟨"https://plain.com", Except.ok ⟨false, none, Confidence.high⟩,
      Except.ok ⟨[], []⟩⟩ (by simp [scrapeInputs2]) hnone⟩

/-- C1 (code behaviour at the failing input): the noise filter keeps
`user@example.com` — the source's `/^@example/i` pattern is anchored at the
start of the string, and a valid email never begins with `@`, so no pattern
of the denylist matches this address and the claimed removal of every email
at an `example` domain does not happen. -/
theorem filterEmails_keeps_user_at_example :
    filterEmails [ "user@example.com" ] = [ "user@example.com" ] := by
  decide

end ClientHunter
